import Mathlib

/-!
Shallow embedding of the anomaly-classification pipeline and the
feature-aggregation / risk-scoring engine of the dirisi25 hackathon backend
(src/app/services/anomaly_detector.py, src/app/services/feature_store.py,
src/app/services/modeling.py), together with theorems settling the
specification's claims about those components.

Conventions of the embedding:
* floats are modelled as exact rationals; pandas NaN is modelled explicitly
  (`FVal.nan` for feature values, `Option` for nullable cells);
* sample standard deviations, the only irrational values the code produces,
  are carried symbolically as `FVal.sqrtVal q` = the nonnegative square root
  of the rational sample variance `q`;
* the string feature keys the source builds (`f"{col}_mean_{w}m"` etc.) are
  carried as the structured key type `FKey`, whose constructors are in
  bijection with the source's key patterns;
* `pd.to_datetime(..., errors="coerce")` and `pd.to_numeric(..., errors="coerce")`
  are library parsers, taken as parameters `parseTs` / `parseNum`;
* the sklearn estimators inside `MLBasedModel` (scaler, classifier, outlier
  detector) are trained artifacts whose learned functions are fields of the
  model structure; the surrounding prediction arithmetic is embedded exactly.
-/

namespace Dirisi

/-- Risk band, from `app.schemas.prediction.RiskBand`. -/
inductive RiskBand where
  | LOW
  | MEDIUM
  | HIGH
  | CRITICAL
deriving DecidableEq, Repr

/-- A feature value (a Python float): `nan` is pandas NaN, `num q` an exact
rational value, `sqrtVal q` the nonnegative square root of the rational `q`
(the form of the sample standard deviations emitted by the feature store;
it is only ever built with `0 ≤ q`). -/
inductive FVal where
  | nan : FVal
  | num : ℚ → FVal
  | sqrtVal : ℚ → FVal
deriving DecidableEq, Repr

/-- `np.isnan` on a feature value. -/
def FVal.isNan : FVal → Bool
  | .nan => true
  | _ => false

/-- Float comparison `v > t` of a feature value against a rational threshold:
comparisons against NaN are false; for `sqrtVal q` (built with `0 ≤ q`),
`√q > t` iff `t < 0` or `t ^ 2 < q`. -/
def FVal.gtQ : FVal → ℚ → Bool
  | .nan, _ => false
  | .num q, t => decide (t < q)
  | .sqrtVal q, t => decide (t < 0) || decide (t ^ 2 < q)

/-- Structured form of the string feature keys built by
`FeatureStore._compute_entity_features`: `current col` is `f"{col}_current"`,
`mean col w` is `f"{col}_mean_{w}m"`, and so on; `w` is the window length in
minutes. The source's key strings are in bijection with these constructors. -/
inductive FKey where
  | current (col : String)
  | mean (col : String) (w : ℕ)
  | std (col : String) (w : ℕ)
  | fmin (col : String) (w : ℕ)
  | fmax (col : String) (w : ℕ)
  | change (col : String) (w : ℕ)
deriving DecidableEq, Repr

/-- The (column, window) pair of a windowed key; `none` for `current` keys. -/
def FKey.wcol : FKey → Option (String × ℕ)
  | .current _ => none
  | .mean c w => some (c, w)
  | .std c w => some (c, w)
  | .fmin c w => some (c, w)
  | .fmax c w => some (c, w)
  | .change c w => some (c, w)

/-- Lookup in an association list, first matching key wins (the lists built
below have pairwise-distinct keys, so this is exactly Python dict lookup). -/
def dictLookup {α β : Type} [DecidableEq α] (k : α) : List (α × β) → Option β
  | [] => none
  | p :: ps => if p.1 = k then some p.2 else dictLookup k ps

/-- Worker for `pdDropDuplicates`: drop the elements already seen. -/
def pdDropDupAux {α : Type} [DecidableEq α] : List α → List α → List α
  | [], _ => []
  | x :: xs, seen =>
      if x ∈ seen then pdDropDupAux xs seen else x :: pdDropDupAux xs (x :: seen)

/-- `pandas.DataFrame.drop_duplicates`: keep the first occurrence of each
element, in order. -/
def pdDropDuplicates {α : Type} [DecidableEq α] (l : List α) : List α :=
  pdDropDupAux l []

/-! ### Feature store (`FeatureStore._compute_entity_features`)

One entity's metric batch is a list of samples; each sample is one row of the
entity's (ts-indexed) frame: its timestamp in minutes and, for each metric
column, the cell's value when it is not NaN (an all-NaN column is the same as
a column that never appears, matching the source's `notna().any()` filter;
the identifier columns `node_id`/`link_id` are not metric values). The caller
(`compute_features`) sorts the samples by `ts` and the timestamps of one
entity are distinct, as produced by the synthesiser. -/

/-- One row of one entity's metric frame. -/
structure MSample where
  ts : ℚ
  values : List (String × ℚ)
deriving DecidableEq, Repr

/-- Sum of a list of rationals. -/
def qSum (l : List ℚ) : ℚ := l.foldr (· + ·) 0

/-- `pandas.Series.mean` of a nonempty series. -/
def qMean (l : List ℚ) : ℚ := qSum l / (l.length : ℚ)

/-- `pandas.Series.min` of a nonempty series. -/
def qMinimum : List ℚ → ℚ
  | [] => 0
  | x :: xs => xs.foldl min x

/-- `pandas.Series.max` of a nonempty series. -/
def qMaximum : List ℚ → ℚ
  | [] => 0
  | x :: xs => xs.foldl max x

/-- The sample variance (`ddof = 1`) of a series of length at least two. -/
def sampleVar (l : List ℚ) : ℚ :=
  qSum (l.map (fun x => (x - qMean l) ^ 2)) / ((l.length : ℚ) - 1)

/-- `pandas.Series.std` (`ddof = 1`): NaN on fewer than two values, otherwise
the square root of the sample variance. -/
def stdFVal (l : List ℚ) : FVal :=
  if 2 ≤ l.length then FVal.sqrtVal (sampleVar l) else FVal.nan

/-- Membership in the trailing window: `window_start ≤ ts' ≤ ts` with
`window_start = ts - w` minutes, the label slice `data.loc[window_start:ts]`
of the sorted frame (both ends inclusive). -/
def inWindow (t : ℚ) (w : ℕ) (s : MSample) : Bool :=
  decide (t - (w : ℚ) ≤ s.ts) && decide (s.ts ≤ t)

/-- `window_data[col].dropna()`: the non-NaN values of metric `c` among the
samples of the trailing window `[t - w, t]`, in timestamp order. -/
def windowColData (data : List MSample) (t : ℚ) (w : ℕ) (c : String) : List ℚ :=
  (data.filter (inWindow t w)).filterMap (fun s => dictLookup c s.values)

/-- The dict entries one `(window, column)` pair contributes to a feature row:
nothing when the column has no sample in the window (the source's `continue`),
otherwise mean/std/min/max and, when the window holds at least two samples
whose first value is nonzero, the relative change `(last - first) / first`. -/
def colEntries (data : List MSample) (t : ℚ) (w : ℕ) (c : String) : List (FKey × FVal) :=
  let colData := windowColData data t w c
  if colData.isEmpty then []
  else
    [(FKey.mean c w, FVal.num (qMean colData)),
     (FKey.std c w, stdFVal colData),
     (FKey.fmin c w, FVal.num (qMinimum colData)),
     (FKey.fmax c w, FVal.num (qMaximum colData))]
    ++ (if 2 ≤ colData.length ∧ colData.headI ≠ 0 then
          [(FKey.change c w, FVal.num ((colData.getLastI - colData.headI) / colData.headI))]
        else [])

/-- The numeric metric columns of an entity frame, in first-appearance order:
every column that has at least one non-NaN cell (`data[c].notna().any()`). -/
def colsOf (data : List MSample) : List String :=
  pdDropDuplicates (data.flatMap (fun s => s.values.map Prod.fst))

/-- The instantaneous entries of a feature row: each metric's current value
when present at this timestamp (`pd.notna(data.loc[ts, col])`). -/
def currentEntries (cols : List String) (s : MSample) : List (FKey × FVal) :=
  cols.filterMap (fun c => (dictLookup c s.values).map (fun v => (FKey.current c, FVal.num v)))

/-- All trailing-window entries of a feature row: the windows loop around the
columns loop, exactly as in the source. -/
def windowEntries (data : List MSample) (cols : List String) (t : ℚ) (windows : List ℕ) :
    List (FKey × FVal) :=
  windows.flatMap (fun w => cols.flatMap (fun c => colEntries data t w c))

/-- One emitted feature vector, keyed by `(entity_id, entity_type, ts)`. -/
structure FeatureRow where
  ts : ℚ
  entity_id : String
  entity_type : String
  feats : List (FKey × FVal)
deriving Repr

/-- The feature vector `_compute_entity_features` emits for the sample at
timestamp `s.ts` of entity `(eid, ety)`. -/
def featureRowFor (data : List MSample) (windows : List ℕ) (eid ety : String)
    (s : MSample) : FeatureRow :=
  { ts := s.ts
    entity_id := eid
    entity_type := ety
    feats := currentEntries (colsOf data) s ++ windowEntries data (colsOf data) s.ts windows }

/-- `FeatureStore._compute_entity_features`: one feature row per observed
timestamp of the entity. -/
def computeEntityFeatures (data : List MSample) (eid ety : String)
    (windows : List ℕ) : List FeatureRow :=
  data.map (featureRowFor data windows eid ety)

/-! ### Rule risk model (`RuleBasedModel`)

A prediction's explanation strings are carried as the message type `Msg`:
`violation metric v` stands for the source's `f"{metric}↑ ({v:.2f} ...)"`
strings (the latency branch differs only in the rendered text), `trend v` for
`f"tendance CPU↑ (+{v:.1%})"`, and `nominal` for the fallback
nominal-metrics message. The source's guard, a substring search for the
trend marker in the joined explanations, is `any Msg.isTrend` here (a
violation message never contains the trend marker, the configured metric
names being plain metric identifiers). -/

/-- One explanation message of the rule model. -/
inductive Msg where
  | violation (metric : String) (value : FVal)
  | trend (change : FVal)
  | nominal
deriving DecidableEq, Repr

/-- Whether a message is the CPU-trend message. -/
def Msg.isTrend : Msg → Bool
  | .trend _ => true
  | _ => false

/-- `RuleBasedModel`: its state is the configured threshold dict. -/
structure RuleBasedModel where
  thresholds : List (String × ℚ)
deriving DecidableEq, Repr

/-- The thresholds a fresh `RuleBasedModel()` reads from the default settings
(`config.py`): cpu 0.85, mem 0.90, if_util 0.80, pkt_err 0.05,
latency_ms 100.0 (raw milliseconds). -/
def defaultThresholds : List (String × ℚ) :=
  [("cpu", 85/100), ("mem", 90/100), ("if_util", 80/100), ("pkt_err", 5/100),
   ("latency_ms", 100)]

/-- The threshold loop of `RuleBasedModel.predict`: for each configured
metric in order, when `f"{metric}_current"` is a key of the feature dict
whose value is neither None nor NaN and exceeds the metric's threshold, a
violation (and its explanation message) is recorded. Both branches of the
source's latency/fraction split perform the same comparison `value > threshold`
and differ only in the message text. -/
def ruleViolationPairs (m : RuleBasedModel) (features : List (FKey × FVal)) :
    List (String × FVal) :=
  m.thresholds.filterMap (fun p =>
    match dictLookup (FKey.current p.1) features with
    | some v => if v.isNan then none else if v.gtQ p.2 then some (p.1, v) else none
    | none => none)

/-- The violated metrics, in configuration order. -/
def ruleViolations (m : RuleBasedModel) (features : List (FKey × FVal)) : List String :=
  (ruleViolationPairs m features).map Prod.fst

/-- The trend scan of `RuleBasedModel.predict`: the first window among
5, 15, 30 minutes whose `f"cpu_change_{w}m"` entry is present, not None, not
NaN and exceeds 0.2 yields its change value; the loop breaks there. -/
def trendHit (features : List (FKey × FVal)) : Option FVal :=
  ([5, 15, 30].filterMap (fun w =>
    match dictLookup (FKey.change "cpu" w) features with
    | some v => if !v.isNan && v.gtQ (2/10) then some v else none
    | none => none)).head?

/-- `RuleBasedModel.predict`: count the `_current` threshold violations, map
the count to a base score and band (0 → 0.1/LOW, 1 → 0.4/MEDIUM,
2 → 0.7/HIGH, otherwise 0.95/CRITICAL), then, when a trailing-window CPU
change qualifies, add 0.1 to the score capped at 1.0 and append the trend
message unless one is already present; an empty explanation list becomes the
nominal message. -/
def rulePredict (m : RuleBasedModel) (features : List (FKey × FVal)) :
    ℚ × RiskBand × List Msg :=
  let pairs := ruleViolationPairs m features
  let n := pairs.length
  let score : ℚ := if n = 0 then 1/10 else if n = 1 then 4/10 else if n = 2 then 7/10 else 95/100
  let band : RiskBand :=
    if n = 0 then .LOW else if n = 1 then .MEDIUM else if n = 2 then .HIGH else .CRITICAL
  let baseExpl := pairs.map (fun p => Msg.violation p.1 p.2)
  let adjusted :=
    match trendHit features with
    | some v =>
        (min 1 (score + 1/10),
         if baseExpl.any Msg.isTrend then baseExpl else baseExpl ++ [Msg.trend v])
    | none => (score, baseExpl)
  (adjusted.1, band, if adjusted.2.isEmpty then [Msg.nominal] else adjusted.2)

/-! ### Statistical risk model (`MLBasedModel`)

The trained artifact is the atomic unit (scaler, classifier, outlier
detector, ordered feature-column list, trained flag). The learned estimators
are functions: `scaler` is `StandardScaler.transform` on one row, `logregProba1`
the classifier's positive-class probability `predict_proba(...)[0][1]`, and
`iforestScore` the outlier detector's raw anomaly score
`score_samples(...)[0]`. The model's explanation helper
(`_get_top_features`, driven by the classifier's coefficients) is outside
every claim and is not modelled. Reals are used because the squash applies
`np.exp`. -/

/-- `MLBasedModel`, as relevant to prediction. -/
structure MLBasedModel where
  feature_columns : List FKey
  scaler : List ℝ → List ℝ
  logregProba1 : List ℝ → ℝ
  iforestScore : List ℝ → ℝ
  is_trained : Bool

/-- A fresh `MLBasedModel()` before any `train` or `load`: whatever its
unfitted estimators would compute, its trained flag is false and its
feature-column list is the initial None (here empty). -/
def freshMLBasedModel (sc : List ℝ → List ℝ) (lr ifo : List ℝ → ℝ) : MLBasedModel :=
  { feature_columns := []
    scaler := sc
    logregProba1 := lr
    iforestScore := ifo
    is_trained := false }

/-- `features.get(col, 0)` with None/NaN replaced by 0; a `sqrtVal q` entry
is the real number it denotes. -/
noncomputable def fvalOrZero : Option FVal → ℝ
  | none => 0
  | some .nan => 0
  | some (.num q) => (q : ℝ)
  | some (.sqrtVal q) => Real.sqrt (q : ℝ)

/-- The reconstructed input row of `MLBasedModel.predict`, in the training
feature-column order, absent and NaN entries zero-filled. -/
noncomputable def mlFeatureValues (m : MLBasedModel) (features : List (FKey × FVal)) :
    List ℝ :=
  m.feature_columns.map (fun c => fvalOrZero (dictLookup c features))

/-- The classifier's positive-class probability on the scaled row. -/
noncomputable def mlPLr (m : MLBasedModel) (features : List (FKey × FVal)) : ℝ :=
  m.logregProba1 (m.scaler (mlFeatureValues m features))

/-- The outlier detector's raw anomaly score on the scaled row. -/
noncomputable def mlSIf (m : MLBasedModel) (features : List (FKey × FVal)) : ℝ :=
  m.iforestScore (m.scaler (mlFeatureValues m features))

/-- The logistic squash of the anomaly score:
`risk_score_if = 1 / (1 + np.exp(anomaly_score * 5))`. -/
noncomputable def mlPIf (m : MLBasedModel) (features : List (FKey × FVal)) : ℝ :=
  1 / (1 + Real.exp (mlSIf m features * 5))

/-- `MLBasedModel.predict` (score and band): a not-trained model raises
`ValueError("Model is not trained")`; otherwise the final score blends the
two probabilities, `0.6 * risk_score_lr + 0.4 * risk_score_if`, and the band
comes from the thresholds 0.3 / 0.6 / 0.85. -/
noncomputable def mlPredict (m : MLBasedModel) (features : List (FKey × FVal)) :
    Except String (ℝ × RiskBand) :=
  if m.is_trained = false then Except.error "Model is not trained"
  else
    let risk_score : ℝ := 0.6 * mlPLr m features + 0.4 * mlPIf m features
    let risk_band : RiskBand :=
      if risk_score < 0.3 then .LOW
      else if risk_score < 0.6 then .MEDIUM
      else if risk_score < 0.85 then .HIGH
      else .CRITICAL
    Except.ok (risk_score, risk_band)

/-! ### Anomaly detectors and pipeline (`anomaly_detector.py`)

A raw log row carries the full LogRecord column set; every cell is nullable
(`none` is a missing/NaN cell). Timestamps parse to epoch seconds (ℤ); the
timestamp parser `parseTs` and the numeric parser `parseNum` stand for
`pd.to_datetime(..., errors="coerce")` and `pd.to_numeric(..., errors="coerce")`
on one cell. -/

/-- One raw firewall log row. -/
structure LogRow where
  timestamp : Option String
  firewall_id : Option String
  src_ip : Option String
  dst_ip : Option String
  protocol : Option String
  action : Option String
  src_port : Option String
  dst_port : Option String
  bytes : Option String
  duration_ms : Option String
  rule_id : Option String
  status : Option String
  session_id : Option String
  reason : Option String
deriving DecidableEq, Repr

/-- One detector finding: the six reported row columns plus the defect id
(the source's `bug_type`); a `none` timestamp is NaT. -/
structure Finding where
  timestamp : Option ℤ
  firewall_id : Option String
  src_ip : Option String
  dst_ip : Option String
  protocol : Option String
  action : Option String
  bug_type : String
deriving DecidableEq, Repr

/-- The row's coerced timestamp: NaT when the cell is missing or unparseable. -/
def rowTs (parseTs : String → Option ℤ) (r : LogRow) : Option ℤ :=
  r.timestamp.bind parseTs

/-- The finding a detector emits for row `r` with defect id `bt`. -/
def baseFinding (parseTs : String → Option ℤ) (r : LogRow) (bt : String) : Finding :=
  { timestamp := rowTs parseTs r
    firewall_id := r.firewall_id
    src_ip := r.src_ip
    dst_ip := r.dst_ip
    protocol := r.protocol
    action := r.action
    bug_type := bt }

/-- The count of non-null cells among every column other than `timestamp`
(the source's `lignes_nat.loc[i, autres_colonnes].count()`). -/
def otherFieldCount (r : LogRow) : ℕ :=
  [r.firewall_id, r.src_ip, r.dst_ip, r.protocol, r.action, r.src_port, r.dst_port,
   r.bytes, r.duration_ms, r.rule_id, r.status, r.session_id, r.reason].countP Option.isSome

/-- `NaTDetector`'s timestamp imputation for the failed row at position `i`:
the previous row's valid coerced timestamp plus one second when the row is
not the first and that timestamp is valid, otherwise the timestamp stays NaT. -/
def natImputedTs (parseTs : String → Option ℤ) (batch : List LogRow) (i : ℕ) : Option ℤ :=
  if i = 0 then none
  else
    match batch[i - 1]? with
    | some prev => (rowTs parseTs prev).map (· + 1)
    | none => none

/-- `NaTDetector.detect`: one finding per row whose timestamp fails to
coerce; its defect id is `corrupt_line` when every other cell of the row is
null and `malformed_timestamp` otherwise, and its timestamp is the imputed
one. -/
def natDetect (parseTs : String → Option ℤ) (batch : List LogRow) : List Finding :=
  (List.range batch.length).filterMap (fun i =>
    match batch[i]? with
    | none => none
    | some r =>
      if (rowTs parseTs r).isSome then none
      else some
        { timestamp := natImputedTs parseTs batch i
          firewall_id := r.firewall_id
          src_ip := r.src_ip
          dst_ip := r.dst_ip
          protocol := r.protocol
          action := r.action
          bug_type := if 0 < otherFieldCount r then "malformed_timestamp" else "corrupt_line" })

/-- `NonNumericPortDetector.detect`: rows where either port cell fails to
coerce to a number (a missing cell coerces to NaN, hence is flagged). -/
def portDetect (parseTs : String → Option ℤ) (parseNum : String → Option ℚ)
    (batch : List LogRow) : List Finding :=
  batch.filterMap (fun r =>
    if (r.src_port.bind parseNum).isNone || (r.dst_port.bind parseNum).isNone then
      some (baseFinding parseTs r "nonnumeric_port")
    else none)

/-- `NegativeBytesDetector.detect`: rows whose coerced byte count is negative
(a NaN byte count compares false). -/
def bytesDetect (parseTs : String → Option ℤ) (parseNum : String → Option ℚ)
    (batch : List LogRow) : List Finding :=
  batch.filterMap (fun r =>
    match r.bytes.bind parseNum with
    | some b => if b < 0 then some (baseFinding parseTs r "negative_bytes") else none
    | none => none)

/-- `InvalidIPDetector.detect`: rows whose source IP equals the sentinel,
then rows whose destination IP does, concatenated and deduplicated (a null
cell stringifies to "nan" and never equals the sentinel). -/
def ipDetect (parseTs : String → Option ℤ) (target : String) (batch : List LogRow) :
    List Finding :=
  pdDropDuplicates
    ((batch.filter (fun r => r.src_ip = some target)
        ++ batch.filter (fun r => r.dst_ip = some target)).map
      (fun r => baseFinding parseTs r "invalid_ip"))

/-- `DuplicateFieldDetector.detect`: rows whose session id contains a pipe
character (a null cell stringifies to "nan", which has none). -/
def dupFieldDetect (parseTs : String → Option ℤ) (batch : List LogRow) : List Finding :=
  batch.filterMap (fun r =>
    match r.session_id with
    | some s => if s.contains '|' then some (baseFinding parseTs r "duplicate_field") else none
    | none => none)

/-- Whether every cell of `MissingFieldDetector.REQUIRED_FIELDS` is non-null. -/
def requiredFieldsPresent (r : LogRow) : Bool :=
  r.firewall_id.isSome && r.src_ip.isSome && r.dst_ip.isSome && r.protocol.isSome &&
  r.action.isSome && r.bytes.isSome && r.duration_ms.isSome && r.rule_id.isSome &&
  r.status.isSome && r.session_id.isSome && r.reason.isSome

/-- `MissingFieldDetector.detect`: rows with a null cell in any of the
required fields (the LogRecord batch carries the full column set). -/
def missingDetect (parseTs : String → Option ℤ) (batch : List LogRow) : List Finding :=
  batch.filterMap (fun r =>
    if requiredFieldsPresent r then none else some (baseFinding parseTs r "missing_field"))

/-- `ThreatDetector.THREAT_MAPPING`. -/
def threatMapping : List (String × String) :=
  [("Potential DDoS - high rate", "ddos"),
   ("Port scan detected", "port_scan"),
   ("Multiple auth failures", "brut_force"),
   ("XSS attempt", "xss"),
   ("Known malicious domain contacted", "malware_download"),
   ("Suspicious SQL payload", "sql_injection")]

/-- `ThreatDetector.detect`: rows whose reason is one of the six known threat
texts, with the mapped threat id. -/
def threatDetect (parseTs : String → Option ℤ) (batch : List LogRow) : List Finding :=
  batch.filterMap (fun r =>
    (r.reason.bind (fun s => dictLookup s threatMapping)).map (baseFinding parseTs r))

/-- `AnomalyClassifier.CLASSIFICATION`: defect id to (severity, category). -/
def classificationTable : List (String × (String × String)) :=
  [("malformed_timestamp", ("High", "Bug")),
   ("corrupt_line", ("High", "Bug")),
   ("nonnumeric_port", ("Medium", "Bug")),
   ("missing_field", ("Low", "Bug")),
   ("negative_bytes", ("Medium", "Bug")),
   ("invalid_ip", ("High", "Bug")),
   ("duplicate_field", ("Low", "Bug")),
   ("port_scan", ("Medium", "Attack")),
   ("brut_force", ("High", "Attack")),
   ("xss", ("Medium", "Attack")),
   ("malware_download", ("High", "Attack")),
   ("ddos", ("High", "Attack")),
   ("sql_injection", ("High", "Attack"))]

/-- `AnomalyClassifier.classify`: a pure total lookup defaulting to
(Unknown, Unknown). -/
def classify (bt : String) : String × String :=
  (dictLookup bt classificationTable).getD ("Unknown", "Unknown")

/-- A pipeline output row: a finding enriched with its taxonomy severity and
category. -/
structure EnrichedFinding where
  finding : Finding
  severity : String
  category : String
deriving DecidableEq, Repr

/-- `AnomalyClassifier.enrich`: attach severity and category, both a pure
function of the defect id. -/
def enrich (l : List Finding) : List EnrichedFinding :=
  l.map (fun f =>
    { finding := f, severity := (classify f.bug_type).1, category := (classify f.bug_type).2 })

/-- `sort_values(by='timestamp')` order on coerced timestamps: NaT is placed
last (pandas `na_position='last'`). -/
def tsLE : Option ℤ → Option ℤ → Bool
  | some a, some b => decide (a ≤ b)
  | some _, none => true
  | none, some _ => false
  | none, none => true

/-- The fixed detector battery of `AnomalyPipeline._init_detectors`, run on
the full batch and concatenated (a detector returning no finding contributes
nothing). -/
def allDetections (parseTs : String → Option ℤ) (parseNum : String → Option ℚ)
    (batch : List LogRow) : List Finding :=
  natDetect parseTs batch
    ++ portDetect parseTs parseNum batch
    ++ bytesDetect parseTs parseNum batch
    ++ ipDetect parseTs "999.999.999.999" batch
    ++ dupFieldDetect parseTs batch
    ++ missingDetect parseTs batch
    ++ threatDetect parseTs batch

/-- `AnomalyPipeline.run`: concatenate every detector's findings, drop exact
duplicates, re-coerce timestamps (the identity on already-coerced
timestamps), sort by timestamp, and attach the taxonomy. -/
def pipelineRun (parseTs : String → Option ℤ) (parseNum : String → Option ℚ)
    (batch : List LogRow) : List EnrichedFinding :=
  enrich ((pdDropDuplicates (allDetections parseTs parseNum batch)).mergeSort
    (fun a b => tsLE a.timestamp b.timestamp))

/-! ### Concrete instances used by the witnesses -/

/-- A timestamp parser on which every cell fails (all-coerce-to-NaT). -/
def noneTs : String → Option ℤ := fun _ => none

/-- A fully empty log row. -/
def emptyLogRow : LogRow :=
  { timestamp := none, firewall_id := none, src_ip := none, dst_ip := none,
    protocol := none, action := none, src_port := none, dst_port := none,
    bytes := none, duration_ms := none, rule_id := none, status := none,
    session_id := none, reason := none }

/-- A log row with every required field present except `reason`. -/
def witnessMissingRow : LogRow :=
  { timestamp := some "2024-01-01 00:00:00", firewall_id := some "FW1",
    src_ip := some "10.0.0.1", dst_ip := some "10.0.0.2", protocol := some "TCP",
    action := some "ALLOW", src_port := some "1234", dst_port := some "443",
    bytes := some "100", duration_ms := some "5", rule_id := some "R1",
    status := some "OK", session_id := some "S1", reason := none }

/-- The spec's scenario batch for entity N1: cpu samples 0.5, 0.6, 0.9 at
minutes 0, 5, 10. -/
def dataN1 : List MSample :=
  [{ ts := 0, values := [("cpu", 1/2)] },
   { ts := 5, values := [("cpu", 3/5)] },
   { ts := 10, values := [("cpu", 9/10)] }]

/-- The N1 sample at minute 10. -/
def sampleN1 : MSample := { ts := 10, values := [("cpu", 9/10)] }

/-- A rule model carrying the default thresholds. -/
def defaultRuleModel : RuleBasedModel := { thresholds := defaultThresholds }

/-- A feature dict with exactly two `_current` threshold violations
(cpu 0.90 > 0.85, mem 0.95 > 0.90) and no trend entry. -/
def twoViolFeats : List (FKey × FVal) :=
  [(FKey.current "cpu", FVal.num (90/100)), (FKey.current "mem", FVal.num (95/100))]

/-- The same two violations plus a qualifying 5-minute CPU trend (+0.30). -/
def twoViolTrendFeats : List (FKey × FVal) :=
  twoViolFeats ++ [(FKey.change "cpu" 5, FVal.num (30/100))]

/-- A trained statistical model whose learned functions are constant:
probability 1/2 and raw anomaly score 0. -/
noncomputable def mlWitModel : MLBasedModel :=
  { feature_columns := []
    scaler := fun l => l
    logregProba1 := fun _ => 1/2
    iforestScore := fun _ => 0
    is_trained := true }

/-! ## Helper lemmas -/

theorem pdDropDupAux_not_mem_seen {α : Type} [DecidableEq α] (a : α) :
    ∀ (l seen : List α), a ∈ pdDropDupAux l seen → a ∉ seen
  | [], _, h => absurd h (List.not_mem_nil a)
  | x :: xs, seen, h => by
    rw [pdDropDupAux] at h
    by_cases hx : x ∈ seen
    · rw [if_pos hx] at h
      exact pdDropDupAux_not_mem_seen a xs seen h
    · rw [if_neg hx] at h
      rcases List.mem_cons.mp h with h | h
      · exact h ▸ hx
      · intro ha
        exact pdDropDupAux_not_mem_seen a xs (x :: seen) h (List.mem_cons_of_mem x ha)

theorem pdDropDupAux_nodup {α : Type} [DecidableEq α] :
    ∀ (l seen : List α), (pdDropDupAux l seen).Nodup
  | [], _ => List.nodup_nil
  | x :: xs, seen => by
    rw [pdDropDupAux]
    by_cases hx : x ∈ seen
    · rw [if_pos hx]
      exact pdDropDupAux_nodup xs seen
    · rw [if_neg hx]
      refine List.nodup_cons.mpr ⟨?_, pdDropDupAux_nodup xs (x :: seen)⟩
      intro hmem
      exact pdDropDupAux_not_mem_seen x xs (x :: seen) hmem (List.mem_cons_self x seen)

theorem pdDropDuplicates_nodup {α : Type} [DecidableEq α] (l : List α) :
    (pdDropDuplicates l).Nodup :=
  pdDropDupAux_nodup l []

theorem dictLookup_append_of_none {α β : Type} [DecidableEq α] {k : α}
    {l1 : List (α × β)} (l2 : List (α × β)) (h : dictLookup k l1 = none) :
    dictLookup k (l1 ++ l2) = dictLookup k l2 := by
  induction l1 with
  | nil => rfl
  | cons p ps ih =>
    rw [dictLookup] at h
    rw [List.cons_append, dictLookup]
    by_cases hp : p.1 = k
    · rw [if_pos hp] at h
      cases h
    · rw [if_neg hp] at h ⊢
      exact ih h

theorem dictLookup_append_of_some {α β : Type} [DecidableEq α] {k : α} {v : β}
    {l1 : List (α × β)} (l2 : List (α × β)) (h : dictLookup k l1 = some v) :
    dictLookup k (l1 ++ l2) = some v := by
  induction l1 with
  | nil => cases h
  | cons p ps ih =>
    rw [dictLookup] at h
    rw [List.cons_append, dictLookup]
    by_cases hp : p.1 = k
    · rw [if_pos hp] at h ⊢
      exact h
    · rw [if_neg hp] at h ⊢
      exact ih h

theorem dictLookup_eq_none_of_forall {α β : Type} [DecidableEq α] {k : α}
    {l : List (α × β)} (h : ∀ p ∈ l, p.1 ≠ k) : dictLookup k l = none := by
  induction l with
  | nil => rfl
  | cons p ps ih =>
    rw [dictLookup, if_neg (h p (List.mem_cons_self p ps))]
    exact ih (fun q hq => h q (List.mem_cons_of_mem p hq))

theorem dictLookup_flatMap {ι α β : Type} [DecidableEq α]
    (f : ι → List (α × β)) (k : α) (i : ι) :
    ∀ (l : List ι), i ∈ l → (∀ j ∈ l, ∀ p ∈ f j, p.1 = k → j = i) →
      dictLookup k (l.flatMap f) = dictLookup k (f i)
  | [], hi, _ => absurd hi (List.not_mem_nil i)
  | j :: l, hi, hother => by
    rw [List.flatMap_cons]
    by_cases hij : j = i
    · subst hij
      cases hfk : dictLookup k (f j) with
      | some v => exact dictLookup_append_of_some _ hfk
      | none =>
        rw [dictLookup_append_of_none _ hfk]
        by_cases hjl : j ∈ l
        · rw [dictLookup_flatMap f k j l hjl
            (fun a ha p hp hpk => hother a (List.mem_cons_of_mem j ha) p hp hpk)]
          exact hfk
        · refine dictLookup_eq_none_of_forall ?_
          intro p hp hpk
          obtain ⟨j2, hj2, hpj2⟩ := List.mem_flatMap.mp hp
          exact hjl ((hother j2 (List.mem_cons_of_mem j hj2) p hpj2 hpk) ▸ hj2)
    · have hnone : dictLookup k (f j) = none :=
        dictLookup_eq_none_of_forall
          (fun p hp hpk => hij (hother j (List.mem_cons_self j l) p hp hpk))
      rw [dictLookup_append_of_none _ hnone]
      exact dictLookup_flatMap f k i l
        ((List.mem_cons.mp hi).resolve_left (fun h => hij h.symm))
        (fun a ha p hp hpk => hother a (List.mem_cons_of_mem j ha) p hp hpk)

theorem enrich_map_finding (l : List Finding) :
    (enrich l).map EnrichedFinding.finding = l := by
  unfold enrich
  rw [List.map_map]
  have h : (EnrichedFinding.finding ∘ fun f : Finding =>
      (⟨f, (classify f.bug_type).1, (classify f.bug_type).2⟩ : EnrichedFinding)) = id := rfl
  rw [h, List.map_id]

/-! ## Claims -/

/-- C3: a statistical-model instance on which no training call and no load of
a trained artifact has been performed — a fresh `MLBasedModel()`, whatever
its unfitted estimators would compute — raises the explicit not-trained
error on `predict` instead of returning a score. -/
theorem mlPredict_untrained_error (sc : List ℝ → List ℝ) (lr ifo : List ℝ → ℝ)
    (features : List (FKey × FVal)) :
    mlPredict (freshMLBasedModel sc lr ifo) features
      = Except.error "Model is not trained" := rfl

/-- C4: for every log batch (and any behaviour of the cell parsers), no two
findings of the Anomaly Pipeline's output agree on all of timestamp,
firewall id, src ip, dst ip, protocol, action and defect id — that 7-tuple
is exactly the `Finding` carried by each output row. -/
theorem pipeline_no_duplicate_findings (parseTs : String → Option ℤ)
    (parseNum : String → Option ℚ) (batch : List LogRow) :
    ((pipelineRun parseTs parseNum batch).map EnrichedFinding.finding).Nodup := by
  unfold pipelineRun
  rw [enrich_map_finding]
  exact (List.mergeSort_perm (pdDropDuplicates (allDetections parseTs parseNum batch))
    (fun a b => tsLE a.timestamp b.timestamp)).symm.nodup
    (pdDropDuplicates_nodup _)

/-- C5: for every row whose timestamp fails to coerce, the timestamp-validity
detector emits a finding for that row whose defect id is `corrupt_line` when
every other cell of the row is null and `malformed_timestamp` when at least
one other cell is present. -/
theorem natDetect_defect_id (parseTs : String → Option ℤ) (batch : List LogRow)
    (i : ℕ) (r : LogRow) (hr : batch[i]? = some r)
    (hfail : rowTs parseTs r = none) :
    ({ timestamp := natImputedTs parseTs batch i
       firewall_id := r.firewall_id
       src_ip := r.src_ip
       dst_ip := r.dst_ip
       protocol := r.protocol
       action := r.action
       bug_type := if otherFieldCount r = 0 then "corrupt_line" else "malformed_timestamp"
       : Finding }) ∈ natDetect parseTs batch := by
  unfold natDetect
  refine List.mem_filterMap.mpr ⟨i, List.mem_range.mpr ?_, ?_⟩
  · by_contra hlen
    rw [List.getElem?_eq_none (Nat.le_of_not_lt hlen)] at hr
    cases hr
  · rw [hr]
    have hflip : (if 0 < otherFieldCount r then "malformed_timestamp" else "corrupt_line")
        = (if otherFieldCount r = 0 then "corrupt_line" else "malformed_timestamp") := by
      by_cases h0 : otherFieldCount r = 0
      · simp [h0]
      · simp [h0, Nat.pos_of_ne_zero h0]
    dsimp only
    rw [hfail, hflip]
    simp

/-- C5 witness: a batch holding one entirely empty row, under a parser on
which everything fails, yields the `corrupt_line` finding. -/
theorem natDetect_defect_id_witness :
    ({ timestamp := none, firewall_id := none, src_ip := none, dst_ip := none,
       protocol := none, action := none, bug_type := "corrupt_line"
       : Finding }) ∈ natDetect noneTs [emptyLogRow] :=
  natDetect_defect_id noneTs [emptyLogRow] 0 emptyLogRow rfl rfl

/-- C6: the taxonomy lookup is a pure total function: on the thirteen
registered defect ids it returns the documented (severity, category) pairs,
and on every unregistered id it returns (Unknown, Unknown) rather than
failing. -/
theorem classify_taxonomy (bt : String)
    (h : bt ∉ classificationTable.map Prod.fst) :
    classify bt = ("Unknown", "Unknown")
    ∧ classify "malformed_timestamp" = ("High", "Bug")
    ∧ classify "corrupt_line" = ("High", "Bug")
    ∧ classify "nonnumeric_port" = ("Medium", "Bug")
    ∧ classify "missing_field" = ("Low", "Bug")
    ∧ classify "negative_bytes" = ("Medium", "Bug")
    ∧ classify "invalid_ip" = ("High", "Bug")
    ∧ classify "duplicate_field" = ("Low", "Bug")
    ∧ classify "port_scan" = ("Medium", "Attack")
    ∧ classify "brut_force" = ("High", "Attack")
    ∧ classify "xss" = ("Medium", "Attack")
    ∧ classify "malware_download" = ("High", "Attack")
    ∧ classify "ddos" = ("High", "Attack")
    ∧ classify "sql_injection" = ("High", "Attack") := by
  refine ⟨?_, by decide⟩
  unfold classify
  rw [dictLookup_eq_none_of_forall
    (fun p hp hpk => h (List.mem_map.mpr ⟨p, hp, hpk⟩))]
  rfl

/-- C6 witness: the unregistered id `no_such_defect` resolves to
(Unknown, Unknown) and the registered table holds. -/
theorem classify_taxonomy_witness :
    classify "no_such_defect" = ("Unknown", "Unknown")
    ∧ classify "malformed_timestamp" = ("High", "Bug")
    ∧ classify "corrupt_line" = ("High", "Bug")
    ∧ classify "nonnumeric_port" = ("Medium", "Bug")
    ∧ classify "missing_field" = ("Low", "Bug")
    ∧ classify "negative_bytes" = ("Medium", "Bug")
    ∧ classify "invalid_ip" = ("High", "Bug")
    ∧ classify "duplicate_field" = ("Low", "Bug")
    ∧ classify "port_scan" = ("Medium", "Attack")
    ∧ classify "brut_force" = ("High", "Attack")
    ∧ classify "xss" = ("Medium", "Attack")
    ∧ classify "malware_download" = ("High", "Attack")
    ∧ classify "ddos" = ("High", "Attack")
    ∧ classify "sql_injection" = ("High", "Attack") :=
  classify_taxonomy "no_such_defect" (by decide)

/-- C9: the completeness detector flags every row with a null cell in any of
the fixed required fields (firewall id, src/dst IP, protocol, action, bytes,
duration, rule id, status, session id, reason), emitting a `missing_field`
finding carrying that row's reported columns. -/
theorem missingDetect_flags (parseTs : String → Option ℤ) (batch : List LogRow)
    (r : LogRow) (hr : r ∈ batch)
    (h : r.firewall_id = none ∨ r.src_ip = none ∨ r.dst_ip = none ∨ r.protocol = none
       ∨ r.action = none ∨ r.bytes = none ∨ r.duration_ms = none ∨ r.rule_id = none
       ∨ r.status = none ∨ r.session_id = none ∨ r.reason = none) :
    baseFinding parseTs r "missing_field" ∈ missingDetect parseTs batch := by
  unfold missingDetect
  refine List.mem_filterMap.mpr ⟨r, hr, ?_⟩
  have hreq : requiredFieldsPresent r = false := by
    unfold requiredFieldsPresent
    rcases h with h|h|h|h|h|h|h|h|h|h|h <;> simp [h]
  rw [hreq]
  rfl

/-- C9 witness: a row missing only its `reason` is flagged. -/
theorem missingDetect_flags_witness :
    baseFinding noneTs witnessMissingRow "missing_field"
      ∈ missingDetect noneTs [witnessMissingRow] :=
  missingDetect_flags noneTs [witnessMissingRow] witnessMissingRow
    (List.mem_singleton.mpr rfl) (by decide)

theorem violationMsgs_no_trend (m : RuleBasedModel) (features : List (FKey × FVal)) :
    ((ruleViolationPairs m features).map (fun p => Msg.violation p.1 p.2)).any Msg.isTrend
      = false := by
  induction ruleViolationPairs m features with
  | nil => rfl
  | cons p ps ih => simpa [Msg.isTrend] using ih

/-- C1: the rule model's score and band come from the `_current`
threshold-violation count — 0 violations give 0.1/LOW, 1 gives 0.4/MEDIUM,
2 gives 0.7/HIGH, 3 or more give 0.95/CRITICAL — and when some
trailing-window CPU change qualifies (first window wins), 0.1 is added to
the score capped at 1.0 and a trend explanation is appended. In particular
exactly two violations with no trend signal give exactly 0.7/HIGH. -/
theorem rule_predict_score_map (m : RuleBasedModel) (features : List (FKey × FVal)) :
    let n := (ruleViolations m features).length
    let base : ℚ :=
      if n = 0 then 1/10 else if n = 1 then 4/10 else if n = 2 then 7/10 else 95/100
    ((rulePredict m features).1
        = if (trendHit features).isSome then min 1 (base + 1/10) else base)
    ∧ ((rulePredict m features).2.1
        = if n = 0 then RiskBand.LOW else if n = 1 then RiskBand.MEDIUM
          else if n = 2 then RiskBand.HIGH else RiskBand.CRITICAL)
    ∧ (∀ v, trendHit features = some v → Msg.trend v ∈ (rulePredict m features).2.2)
    ∧ (rulePredict m features).1 ≤ 1
    ∧ (n = 2 → trendHit features = none →
        (rulePredict m features).1 = 7/10 ∧ (rulePredict m features).2.1 = RiskBand.HIGH) := by
  dsimp only
  cases htr : trendHit features with
  | none =>
    refine ⟨?_, ?_, ?_, ?_, ?_⟩
    · simp [rulePredict, htr, ruleViolations]
    · simp [rulePredict, htr, ruleViolations]
    · intro v hv
      cases hv
    · simp only [rulePredict, htr]
      split_ifs <;> norm_num
    · intro h2 _
      simp only [ruleViolations, List.length_map] at h2
      exact ⟨by simp [rulePredict, htr, h2], by simp [rulePredict, htr, h2]⟩
  | some v =>
    refine ⟨?_, ?_, ?_, ?_, ?_⟩
    · simp [rulePredict, htr, ruleViolations]
    · simp [rulePredict, htr, ruleViolations]
    · intro v2 hv2
      injection hv2 with hv
      subst hv
      simp [rulePredict, htr, violationMsgs_no_trend]
    · simp only [rulePredict, htr]
      exact min_le_left _ _
    · intro _ hcon
      cases hcon

/-- C10: the CPU-trend post-adjustment never touches the band: the band of a
rule-model prediction is a function of the `_current` threshold-violation
count alone, so two feature vectors agreeing on every configured
`_current` entry get the same band however their trend entries differ. -/
theorem rule_band_frame (m : RuleBasedModel) (f g : List (FKey × FVal))
    (h : ∀ metric ∈ m.thresholds.map Prod.fst,
      dictLookup (FKey.current metric) f = dictLookup (FKey.current metric) g) :
    (rulePredict m f).2.1 = (rulePredict m g).2.1
    ∧ ((rulePredict m f).2.1 =
        (if (ruleViolations m f).length = 0 then RiskBand.LOW
         else if (ruleViolations m f).length = 1 then RiskBand.MEDIUM
         else if (ruleViolations m f).length = 2 then RiskBand.HIGH
         else RiskBand.CRITICAL)) := by
  have hpairs : ruleViolationPairs m f = ruleViolationPairs m g := by
    unfold ruleViolationPairs
    apply List.filterMap_congr
    intro p hp
    rw [h p.1 (List.mem_map_of_mem Prod.fst hp)]
  have hband : ∀ fe : List (FKey × FVal), (rulePredict m fe).2.1 =
      (if (ruleViolationPairs m fe).length = 0 then RiskBand.LOW
       else if (ruleViolationPairs m fe).length = 1 then RiskBand.MEDIUM
       else if (ruleViolationPairs m fe).length = 2 then RiskBand.HIGH
       else RiskBand.CRITICAL) := by
    intro fe
    cases htr : trendHit fe <;> simp only [rulePredict, htr]
  refine ⟨?_, ?_⟩
  · rw [hband f, hband g, hpairs]
  · rw [hband f]
    simp only [ruleViolations, List.length_map]

/-- C10 witness: two violations plus a qualifying trend entry and the same
two violations without it share the HIGH band. -/
theorem rule_band_frame_witness :
    (rulePredict defaultRuleModel twoViolTrendFeats).2.1
        = (rulePredict defaultRuleModel twoViolFeats).2.1
    ∧ ((rulePredict defaultRuleModel twoViolTrendFeats).2.1 =
        (if (ruleViolations defaultRuleModel twoViolTrendFeats).length = 0 then RiskBand.LOW
         else if (ruleViolations defaultRuleModel twoViolTrendFeats).length = 1 then
           RiskBand.MEDIUM
         else if (ruleViolations defaultRuleModel twoViolTrendFeats).length = 2 then
           RiskBand.HIGH
         else RiskBand.CRITICAL)) :=
  rule_band_frame defaultRuleModel twoViolTrendFeats twoViolFeats (by
    intro metric hmetric
    simp only [defaultRuleModel, defaultThresholds, List.map] at hmetric
    fin_cases hmetric <;> rfl)

/-- C2: on a trained statistical model, `predict` succeeds and returns the
blended score `0.6·p_lr + 0.4·p_if`, where `p_if` is the logistic squash
`1/(1 + e^(5·s_if))` of the outlier detector's raw anomaly score; provided
`p_lr` is a probability the score lies in [0, 1], and the band follows the
documented thresholds 0.3 / 0.6 / 0.85. -/
theorem mlPredict_trained_spec (m : MLBasedModel) (features : List (FKey × FVal))
    (htr : m.is_trained = true)
    (hp0 : 0 ≤ mlPLr m features) (hp1 : mlPLr m features ≤ 1) :
    ∃ score band, mlPredict m features = Except.ok (score, band)
      ∧ score = 0.6 * mlPLr m features + 0.4 * mlPIf m features
      ∧ mlPIf m features = 1 / (1 + Real.exp (mlSIf m features * 5))
      ∧ 0 ≤ score ∧ score ≤ 1
      ∧ band = (if score < 0.3 then RiskBand.LOW else if score < 0.6 then RiskBand.MEDIUM
                else if score < 0.85 then RiskBand.HIGH else RiskBand.CRITICAL) := by
  have he := Real.exp_pos (mlSIf m features * 5)
  have hq0 : 0 < mlPIf m features := by
    unfold mlPIf
    positivity
  have hq1 : mlPIf m features ≤ 1 := by
    unfold mlPIf
    rw [div_le_one (by linarith)]
    linarith
  refine ⟨0.6 * mlPLr m features + 0.4 * mlPIf m features, _, ?_, rfl, rfl, ?_, ?_, rfl⟩
  · unfold mlPredict
    rw [htr]
    simp
  · nlinarith
  · nlinarith

/-- C2 witness: a trained model with constant learned functions (probability
1/2, anomaly score 0) satisfies the blended-score contract on the empty
feature dict. -/
theorem mlPredict_trained_spec_witness :
    ∃ score band, mlPredict mlWitModel [] = Except.ok (score, band)
      ∧ score = 0.6 * mlPLr mlWitModel [] + 0.4 * mlPIf mlWitModel []
      ∧ mlPIf mlWitModel [] = 1 / (1 + Real.exp (mlSIf mlWitModel [] * 5))
      ∧ 0 ≤ score ∧ score ≤ 1
      ∧ band = (if score < 0.3 then RiskBand.LOW else if score < 0.6 then RiskBand.MEDIUM
                else if score < 0.85 then RiskBand.HIGH else RiskBand.CRITICAL) :=
  mlPredict_trained_spec mlWitModel [] rfl
    (by norm_num [mlPLr, mlWitModel]) (by norm_num [mlPLr, mlWitModel])

theorem currentEntries_wcol (cols : List String) (s : MSample) :
    ∀ p ∈ currentEntries cols s, FKey.wcol p.1 = none := by
  intro p hp
  simp only [currentEntries, List.mem_filterMap] at hp
  obtain ⟨c, _, hmap⟩ := hp
  cases hdl : dictLookup c s.values with
  | none => rw [hdl] at hmap; cases hmap
  | some v => rw [hdl] at hmap; cases hmap; rfl

theorem colEntries_wcol (data : List MSample) (t : ℚ) (w : ℕ) (c : String) :
    ∀ p ∈ colEntries data t w c, FKey.wcol p.1 = some (c, w) := by
  intro p hp
  simp only [colEntries] at hp
  split at hp
  · cases hp
  · rw [List.mem_append] at hp
    rcases hp with hp | hp
    · simp only [List.mem_cons, List.not_mem_nil, or_false] at hp
      rcases hp with rfl | rfl | rfl | rfl <;> rfl
    · split at hp
      · simp only [List.mem_cons, List.not_mem_nil, or_false] at hp
        subst hp
        rfl
      · cases hp

theorem featureRow_lookup (data : List MSample) (windows : List ℕ) (eid ety : String)
    (s : MSample) (w : ℕ) (c : String) (hw : w ∈ windows) (hc : c ∈ colsOf data)
    (k : FKey) (hk : FKey.wcol k = some (c, w)) :
    dictLookup k (featureRowFor data windows eid ety s).feats
      = dictLookup k (colEntries data s.ts w c) := by
  show dictLookup k
    (currentEntries (colsOf data) s ++ windowEntries data (colsOf data) s.ts windows) = _
  rw [dictLookup_append_of_none _ (dictLookup_eq_none_of_forall (fun p hp hpk => by
    have h0 := currentEntries_wcol (colsOf data) s p hp
    rw [hpk, hk] at h0
    cases h0))]
  unfold windowEntries
  rw [dictLookup_flatMap
    (fun w2 => (colsOf data).flatMap (fun c2 => colEntries data s.ts w2 c2)) k w windows hw
    ?_]
  · exact dictLookup_flatMap (fun c2 => colEntries data s.ts w c2) k c (colsOf data) hc
      (fun c2 hc2 p hp hpk => by
        have h0 := colEntries_wcol data s.ts w c2 p hp
        rw [hpk, hk] at h0
        injection h0 with h1
        injection h1 with hcc _
        exact hcc.symm)
  · intro w2 hw2 p hp hpk
    obtain ⟨c2, hc2, hpc⟩ := List.mem_flatMap.mp hp
    have h0 := colEntries_wcol data s.ts w2 c2 p hpc
    rw [hpk, hk] at h0
    injection h0 with h1
    injection h1 with _ hww
    exact hww.symm

theorem dictLookup_colEntries_mean (data : List MSample) (t : ℚ) (w : ℕ) (c : String) :
    dictLookup (FKey.mean c w) (colEntries data t w c)
      = if windowColData data t w c = [] then none
        else some (FVal.num (qMean (windowColData data t w c))) := by
  simp only [colEntries]
  by_cases hemp : windowColData data t w c = []
  · simp [hemp, dictLookup]
  · rw [if_neg (by simpa [List.isEmpty_iff] using hemp), if_neg hemp]
    simp [dictLookup]

theorem dictLookup_colEntries_std (data : List MSample) (t : ℚ) (w : ℕ) (c : String) :
    dictLookup (FKey.std c w) (colEntries data t w c)
      = if windowColData data t w c = [] then none
        else some (stdFVal (windowColData data t w c)) := by
  simp only [colEntries]
  by_cases hemp : windowColData data t w c = []
  · simp [hemp, dictLookup]
  · rw [if_neg (by simpa [List.isEmpty_iff] using hemp), if_neg hemp]
    simp [dictLookup]

theorem dictLookup_colEntries_fmin (data : List MSample) (t : ℚ) (w : ℕ) (c : String) :
    dictLookup (FKey.fmin c w) (colEntries data t w c)
      = if windowColData data t w c = [] then none
        else some (FVal.num (qMinimum (windowColData data t w c))) := by
  simp only [colEntries]
  by_cases hemp : windowColData data t w c = []
  · simp [hemp, dictLookup]
  · rw [if_neg (by simpa [List.isEmpty_iff] using hemp), if_neg hemp]
    simp [dictLookup]

theorem dictLookup_colEntries_fmax (data : List MSample) (t : ℚ) (w : ℕ) (c : String) :
    dictLookup (FKey.fmax c w) (colEntries data t w c)
      = if windowColData data t w c = [] then none
        else some (FVal.num (qMaximum (windowColData data t w c))) := by
  simp only [colEntries]
  by_cases hemp : windowColData data t w c = []
  · simp [hemp, dictLookup]
  · rw [if_neg (by simpa [List.isEmpty_iff] using hemp), if_neg hemp]
    simp [dictLookup]

theorem dictLookup_colEntries_change (data : List MSample) (t : ℚ) (w : ℕ) (c : String) :
    dictLookup (FKey.change c w) (colEntries data t w c)
      = if 2 ≤ (windowColData data t w c).length ∧ (windowColData data t w c).headI ≠ 0
        then some (FVal.num (((windowColData data t w c).getLastI
            - (windowColData data t w c).headI) / (windowColData data t w c).headI))
        else none := by
  simp only [colEntries]
  by_cases hemp : windowColData data t w c = []
  · simp [hemp, dictLookup]
  · rw [if_neg (by simpa [List.isEmpty_iff] using hemp)]
    by_cases hcond : 2 ≤ (windowColData data t w c).length
        ∧ (windowColData data t w c).headI ≠ 0
    · rw [if_pos hcond, if_pos hcond]
      simp [dictLookup]
    · rw [if_neg hcond, if_neg hcond]
      simp [dictLookup]

/-- C7: for every entity batch, observed timestamp, configured window and
metric, the emitted mean/std/min/max entries are computed from exactly the
samples whose timestamps lie in `[t − W, t]` (so never from a later sample,
and unchanged under any modification outside the window), and when the
metric has no sample in the window the entry is absent from the vector, not
zero-filled. -/
theorem featureRow_window_aggregates (data : List MSample) (windows : List ℕ)
    (eid ety : String) (s : MSample) (w : ℕ) (c : String)
    (hs : s ∈ data) (hw : w ∈ windows) (hc : c ∈ colsOf data) :
    (∀ x ∈ data.filter (inWindow s.ts w), s.ts - (w : ℚ) ≤ x.ts ∧ x.ts ≤ s.ts)
    ∧ (∀ data2 : List MSample,
        data2.filter (inWindow s.ts w) = data.filter (inWindow s.ts w) →
        windowColData data2 s.ts w c = windowColData data s.ts w c)
    ∧ (dictLookup (FKey.mean c w) (featureRowFor data windows eid ety s).feats
        = if windowColData data s.ts w c = [] then none
          else some (FVal.num (qMean (windowColData data s.ts w c))))
    ∧ (dictLookup (FKey.std c w) (featureRowFor data windows eid ety s).feats
        = if windowColData data s.ts w c = [] then none
          else some (stdFVal (windowColData data s.ts w c)))
    ∧ (dictLookup (FKey.fmin c w) (featureRowFor data windows eid ety s).feats
        = if windowColData data s.ts w c = [] then none
          else some (FVal.num (qMinimum (windowColData data s.ts w c))))
    ∧ (dictLookup (FKey.fmax c w) (featureRowFor data windows eid ety s).feats
        = if windowColData data s.ts w c = [] then none
          else some (FVal.num (qMaximum (windowColData data s.ts w c)))) := by
  refine ⟨?_, ?_, ?_, ?_, ?_, ?_⟩
  · intro x hx
    have hfx := (List.mem_filter.mp hx).2
    unfold inWindow at hfx
    simp only [Bool.and_eq_true, decide_eq_true_eq] at hfx
    exact hfx
  · intro data2 h2
    unfold windowColData
    rw [h2]
  · rw [featureRow_lookup data windows eid ety s w c hw hc (FKey.mean c w) rfl]
    exact dictLookup_colEntries_mean data s.ts w c
  · rw [featureRow_lookup data windows eid ety s w c hw hc (FKey.std c w) rfl]
    exact dictLookup_colEntries_std data s.ts w c
  · rw [featureRow_lookup data windows eid ety s w c hw hc (FKey.fmin c w) rfl]
    exact dictLookup_colEntries_fmin data s.ts w c
  · rw [featureRow_lookup data windows eid ety s w c hw hc (FKey.fmax c w) rfl]
    exact dictLookup_colEntries_fmax data s.ts w c

/-- C7 witness: the N1 scenario batch at t = 10 with the 5-minute window and
metric cpu. -/
theorem featureRow_window_aggregates_witness :
    (∀ x ∈ dataN1.filter (inWindow sampleN1.ts 5),
        sampleN1.ts - ((5 : ℕ) : ℚ) ≤ x.ts ∧ x.ts ≤ sampleN1.ts)
    ∧ (∀ data2 : List MSample,
        data2.filter (inWindow sampleN1.ts 5) = dataN1.filter (inWindow sampleN1.ts 5) →
        windowColData data2 sampleN1.ts 5 "cpu" = windowColData dataN1 sampleN1.ts 5 "cpu")
    ∧ (dictLookup (FKey.mean "cpu" 5)
          (featureRowFor dataN1 [5, 15, 30] "N1" "node" sampleN1).feats
        = if windowColData dataN1 sampleN1.ts 5 "cpu" = [] then none
          else some (FVal.num (qMean (windowColData dataN1 sampleN1.ts 5 "cpu"))))
    ∧ (dictLookup (FKey.std "cpu" 5)
          (featureRowFor dataN1 [5, 15, 30] "N1" "node" sampleN1).feats
        = if windowColData dataN1 sampleN1.ts 5 "cpu" = [] then none
          else some (stdFVal (windowColData dataN1 sampleN1.ts 5 "cpu")))
    ∧ (dictLookup (FKey.fmin "cpu" 5)
          (featureRowFor dataN1 [5, 15, 30] "N1" "node" sampleN1).feats
        = if windowColData dataN1 sampleN1.ts 5 "cpu" = [] then none
          else some (FVal.num (qMinimum (windowColData dataN1 sampleN1.ts 5 "cpu"))))
    ∧ (dictLookup (FKey.fmax "cpu" 5)
          (featureRowFor dataN1 [5, 15, 30] "N1" "node" sampleN1).feats
        = if windowColData dataN1 sampleN1.ts 5 "cpu" = [] then none
          else some (FVal.num (qMaximum (windowColData dataN1 sampleN1.ts 5 "cpu")))) :=
  featureRow_window_aggregates dataN1 [5, 15, 30] "N1" "node" sampleN1 5 "cpu"
    (List.Mem.tail _ (List.Mem.tail _ (List.Mem.head _))) (by decide) (by decide)

/-- C8: the change entry for a window and metric is present exactly when the
window holds at least two samples of the metric whose first value is
nonzero, in which case it is `(last − first)/first`; with a zero first
sample or fewer than two samples the entry is absent (the computation is
skipped, never an infinity or NaN). -/
theorem featureRow_change_ratio (data : List MSample) (windows : List ℕ)
    (eid ety : String) (s : MSample) (w : ℕ) (c : String)
    (hs : s ∈ data) (hw : w ∈ windows) (hc : c ∈ colsOf data) :
    dictLookup (FKey.change c w) (featureRowFor data windows eid ety s).feats
      = if 2 ≤ (windowColData data s.ts w c).length
          ∧ (windowColData data s.ts w c).headI ≠ 0
        then some (FVal.num (((windowColData data s.ts w c).getLastI
            - (windowColData data s.ts w c).headI) / (windowColData data s.ts w c).headI))
        else none := by
  rw [featureRow_lookup data windows eid ety s w c hw hc (FKey.change c w) rfl]
  exact dictLookup_colEntries_change data s.ts w c

/-- C8 witness: the spec scenario — cpu samples 0.5/0.6/0.9 at minutes
0/5/10, window 5 at t = 10 — yields the change ratio (0.9 − 0.6)/0.6 = 0.5. -/
theorem featureRow_change_ratio_witness :
    dictLookup (FKey.change "cpu" 5)
        (featureRowFor dataN1 [5, 15, 30] "N1" "node" sampleN1).feats
      = some (FVal.num (1/2)) := by
  have h := featureRow_change_ratio dataN1 [5, 15, 30] "N1" "node" sampleN1 5 "cpu"
    (List.Mem.tail _ (List.Mem.tail _ (List.Mem.head _))) (by decide) (by decide)
  rw [h]
  norm_num [windowColData, dataN1, sampleN1, inWindow, dictLookup, List.getLastI,
    List.filter, List.filterMap_cons, List.filterMap_nil, List.headI]

end Dirisi
